import Mathlib

/-!
# Verification of `cleanup_old_wallpapers.py`

A shallow embedding of the wallpaper-cleanup script.  Filenames are `String`s,
a directory is the list of names it contains, the clock is an explicit
`Timestamp` argument (one reading per `datetime.now()` call site that matters),
and the outcome of each `Path.unlink` call is an oracle
`unlink : String → Option String` (`none` = success, `some e` = `OSError e`).
Printed lines are modelled as a list of `OutLine` events carrying the data that
is interpolated into each message.
-/

/-- A calendar date as produced by `datetime.strptime(_, "%Y-%m-%d")`
(the time-of-day fields of the resulting `datetime` are all zero). -/
structure Date where
  year : Nat
  month : Nat
  day : Nat
deriving DecidableEq

/-- Gregorian leap-year rule used by `datetime`. -/
def isLeap (y : Nat) : Bool :=
  y % 4 == 0 && (y % 100 != 0 || y % 400 == 0)

/-- Length of month `m` in year `y` (`0` for an out-of-range month). -/
def daysInMonth (y m : Nat) : Nat :=
  match m with
  | 1 => 31
  | 2 => if isLeap y then 29 else 28
  | 3 => 31
  | 4 => 30
  | 5 => 31
  | 6 => 30
  | 7 => 31
  | 8 => 31
  | 9 => 30
  | 10 => 31
  | 11 => 30
  | 12 => 31
  | _ => 0

/-- Numeric value of an ASCII digit character. -/
def digitVal (c : Char) : Nat := c.toNat - 48

/-- Value of a big-endian string of digit characters. -/
def natOfDigits (l : List Char) : Nat := l.foldl (fun a c => 10 * a + digitVal c) 0

/-- `datetime(year, month, day)` construction: `some` exactly when the
constructor does not raise `ValueError` (`MINYEAR = 1`, `MAXYEAR = 9999`). -/
def mkValidDate (y m d : Nat) : Option Date :=
  if 1 ≤ y ∧ y ≤ 9999 ∧ 1 ≤ m ∧ m ≤ 12 ∧ 1 ≤ d ∧ d ≤ daysInMonth y m then
    some ⟨y, m, d⟩
  else none

/-- Splits off the maximal leading hyphen-free run and the character list after
the first hyphen.  `[^-]+` cannot match a hyphen, so the regex's device segment
always ends exactly at the first hyphen; an empty first component corresponds
to `[^-]+` failing. -/
def breakHyphen : List Char → Option (List Char × List Char)
  | [] => none
  | c :: cs =>
    if c = '-' then some ([], cs)
    else (breakHyphen cs).map (fun p => (c :: p.1, p.2))

/-- The `\d{4}-\d{2}-\d{2}\.png` part of the regular expression, applied where
the date group starts.  `re.match` does not anchor the end of the string, so
characters after `png` are allowed.  Returns the numeric (year, month, day) of
the captured group. -/
def matchTail : List Char → Option (Nat × Nat × Nat)
  | y1 :: y2 :: y3 :: y4 :: h1 :: m1 :: m2 :: h2 :: d1 :: d2 :: p1 :: p2 :: p3 :: p4 :: _ =>
    if y1.isDigit && y2.isDigit && y3.isDigit && y4.isDigit && h1 == '-' &&
       m1.isDigit && m2.isDigit && h2 == '-' && d1.isDigit && d2.isDigit &&
       p1 == '.' && p2 == 'p' && p3 == 'n' && p4 == 'g' then
      some (natOfDigits [y1, y2, y3, y4], natOfDigits [m1, m2], natOfDigits [d1, d2])
    else none
  | _ => none

/-- `parse_date_from_filename`: `re.match` of
`wallpaper-[^-]+-(\d{4}-\d{2}-\d{2})\.png` followed by
`datetime.strptime(group, "%Y-%m-%d")`, with `ValueError` mapped to `none`. -/
def parse_date_from_filename (s : String) : Option Date :=
  let cs := s.toList
  if cs.take 10 == "wallpaper-".toList then
    match breakHyphen (cs.drop 10) with
    | some (id, rest) =>
      if id.isEmpty then none
      else
        match matchTail rest with
        | some (y, m, d) => mkValidDate y m d
        | none => none
    | none => none
  else none

/-- Modelled from the claim's words: a date part `<YYYY-MM-DD>.png` ending the
string exactly, the date syntactically valid (month 01-12, day valid for that
month and year, including leap years; the claim puts no bound on the year). -/
def specDateExact : List Char → Option Date
  | [y1, y2, y3, y4, h1, m1, m2, h2, d1, d2, p1, p2, p3, p4] =>
    if y1.isDigit && y2.isDigit && y3.isDigit && y4.isDigit && h1 == '-' &&
       m1.isDigit && m2.isDigit && h2 == '-' && d1.isDigit && d2.isDigit &&
       p1 == '.' && p2 == 'p' && p3 == 'n' && p4 == 'g' then
      let y := natOfDigits [y1, y2, y3, y4]
      let m := natOfDigits [m1, m2]
      let d := natOfDigits [d1, d2]
      if 1 ≤ m ∧ m ≤ 12 ∧ 1 ≤ d ∧ d ≤ daysInMonth y m then some ⟨y, m, d⟩ else none
    else none
  | _ => none

/-- Modelled from the amended claim: a date part `<YYYY-MM-DD>.png` followed by
arbitrary trailing characters, the date a valid calendar date with year at
least `0001`. -/
def specDateLoose : List Char → Option Date
  | y1 :: y2 :: y3 :: y4 :: h1 :: m1 :: m2 :: h2 :: d1 :: d2 :: p1 :: p2 :: p3 :: p4 :: _ =>
    if y1.isDigit && y2.isDigit && y3.isDigit && y4.isDigit && h1 == '-' &&
       m1.isDigit && m2.isDigit && h2 == '-' && d1.isDigit && d2.isDigit &&
       p1 == '.' && p2 == 'p' && p3 == 'n' && p4 == 'g' then
      let y := natOfDigits [y1, y2, y3, y4]
      let m := natOfDigits [m1, m2]
      let d := natOfDigits [d1, d2]
      if 1 ≤ y ∧ 1 ≤ m ∧ m ≤ 12 ∧ 1 ≤ d ∧ d ≤ daysInMonth y m then some ⟨y, m, d⟩
      else none
    else none
  | _ => none

/-- Modelled from the claim's words (for comparison with the code): the string
is exactly `wallpaper-<id>-<YYYY-MM-DD>.png` with `<id>` one or more non-hyphen
characters — so `<id>` is everything up to the first hyphen after the prefix —
and the date part a syntactically valid calendar date. -/
def claimParse (s : String) : Option Date :=
  let cs := s.toList
  if cs.take 10 == "wallpaper-".toList then
    match (cs.drop 10).takeWhile (fun c => c != '-'),
          (cs.drop 10).dropWhile (fun c => c != '-') with
    | _ :: _, '-' :: rest => specDateExact rest
    | _, _ => none
  else none

/-- Modelled from the amended claim: like `claimParse`, but arbitrary trailing
characters after `.png` are tolerated and the year must be at least `0001`. -/
def amendedParse (s : String) : Option Date :=
  let cs := s.toList
  if cs.take 10 == "wallpaper-".toList then
    match (cs.drop 10).takeWhile (fun c => c != '-'),
          (cs.drop 10).dropWhile (fun c => c != '-') with
    | _ :: _, '-' :: rest => specDateLoose rest
    | _, _ => none
  else none

/-- A `datetime` instant: proleptic-Gregorian ordinal day plus time of day
(e.g. microseconds since midnight; the unit is irrelevant to the model). -/
structure Timestamp where
  day : Int
  tod : Nat
deriving DecidableEq

/-- Python `datetime` comparison, restricted to the two modelled components. -/
def tsLt (a b : Timestamp) : Bool :=
  a.day < b.day || (a.day == b.day && a.tod < b.tod)

/-- `now - timedelta(days=max_age_days)`: shifts the day, keeps the time. -/
def cutoffOf (now : Timestamp) (max_age_days : Int) : Timestamp :=
  ⟨now.day - max_age_days, now.tod⟩

/-- Days of year `y` that precede month `m`. -/
def daysBeforeMonth (y m : Nat) : Nat :=
  (List.range (m - 1)).foldl (fun a i => a + daysInMonth y (i + 1)) 0

/-- `date.toordinal()` (CPython `_ymd2ord`). -/
def dateDayNum (d : Date) : Int :=
  ((365 * (d.year - 1) + (d.year - 1) / 4 - (d.year - 1) / 100 + (d.year - 1) / 400
    + daysBeforeMonth d.year d.month + d.day : Nat) : Int)

/-- The `datetime` a parsed date denotes: midnight of its day. -/
def tsOfDate (d : Date) : Timestamp := ⟨dateDayNum d, 0⟩

/-- `fnmatch` of the glob pattern `wallpaper-*.png` against a file name
(`*` matches any characters; both conditions holding forces length ≥ 14). -/
def globMatch (name : String) : Bool :=
  let cs := name.toList
  cs.take 10 == "wallpaper-".toList && cs.drop (cs.length - 4) == ['.', 'p', 'n', 'g']

/-- The comparison used by `sorted(old_files, key=lambda x: x[1])`: order by the
parsed date, i.e. by its `datetime` ordinal. -/
def wallLe (a b : String × Date) : Prop := dateDayNum a.2 ≤ dateDayNum b.2

instance : DecidableRel wallLe := fun a b =>
  inferInstanceAs (Decidable (dateDayNum a.2 ≤ dateDayNum b.2))

instance : IsTotal (String × Date) wallLe := ⟨fun _ _ => Int.le_total _ _⟩

instance : IsTrans (String × Date) wallLe := ⟨fun _ _ _ h1 h2 => le_trans h1 h2⟩

/-- The loop body of `find_old_wallpapers`: a glob-matched name contributes a
`(path, date)` pair when it parses and its date lies strictly before `cutoff`. -/
def selectFile (cutoff : Timestamp) (name : String) : Option (String × Date) :=
  if globMatch name then
    match parse_date_from_filename name with
    | some d => if tsLt (tsOfDate d) cutoff then some (name, d) else none
    | none => none
  else none

/-- `find_old_wallpapers`: glob scan, per-file parse, strict age filter against
a cutoff computed once from `now`, then a stable sort by date
(`List.insertionSort` is stable, like Python's `sorted`). -/
def find_old_wallpapers (files : List String) (now : Timestamp) (max_age_days : Int) :
    List (String × Date) :=
  (files.filterMap (selectFile (cutoffOf now max_age_days))).insertionSort wallLe

/-- One line printed to stdout, carrying the interpolated data. -/
inductive OutLine where
  | noFiles (max_age_days : Int)
  | header (action : String) (count : Nat) (cutoff : Timestamp)
  | fileLine (name : String) (date : Date) (ageDays : Int)
  | deleteError (name : String) (err : String)
  | liveSummary (count : Nat)
  | drySummary (count : Nat)
  | countLine (count : Nat)
  | dirMissing (dir : String)
deriving DecidableEq

/-- Result of one orchestrator run: the returned count, the stdout lines, the
directory contents afterwards, and (instrumentation) the names on which
`unlink` was called. -/
structure CleanupResult where
  count : Nat
  output : List OutLine
  filesAfter : List String
  attempted : List String
deriving DecidableEq

/-- The per-file loop of `cleanup_old_wallpapers` over the candidate list,
threading the directory contents.  Returns
(deleted_count, printed lines, directory afterwards, unlink calls made). -/
def cleanupLoop (dry_run : Bool) (unlink : String → Option String) (now2 : Timestamp) :
    List (String × Date) → List String → Nat × List OutLine × List String × List String
  | [], fs => (0, [], fs, [])
  | (name, d) :: rest, fs =>
    let line := OutLine.fileLine name d (now2.day - dateDayNum d)
    if dry_run then
      let r := cleanupLoop dry_run unlink now2 rest fs
      (r.1 + 1, line :: r.2.1, r.2.2.1, r.2.2.2)
    else
      match unlink name with
      | none =>
        let r := cleanupLoop dry_run unlink now2 rest (fs.erase name)
        (r.1 + 1, line :: r.2.1, r.2.2.1, name :: r.2.2.2)
      | some e =>
        let r := cleanupLoop dry_run unlink now2 rest fs
        (r.1, line :: OutLine.deleteError name e :: r.2.1, r.2.2.1, name :: r.2.2.2)

/-- `cleanup_old_wallpapers`.  `now` is the clock reading taken inside
`find_old_wallpapers`; `now2` stands for the (microseconds later) readings used
for the header cutoff and the age display — the skew is cosmetic and accepted. -/
def cleanup_old_wallpapers (files : List String) (max_age_days : Int) (dry_run : Bool)
    (now now2 : Timestamp) (unlink : String → Option String) : CleanupResult :=
  let old_files := find_old_wallpapers files now max_age_days
  if old_files.isEmpty then
    { count := 0, output := [OutLine.noFiles max_age_days], filesAfter := files,
      attempted := [] }
  else
    let action := if dry_run then "Would delete" else "Deleting"
    let hd := OutLine.header action old_files.length (cutoffOf now2 max_age_days)
    let r := cleanupLoop dry_run unlink now2 old_files files
    let summary : List OutLine :=
      if !dry_run && decide (0 < r.1) then [OutLine.liveSummary r.1]
      else if dry_run then [OutLine.drySummary r.1]
      else []
    { count := r.1, output := hd :: r.2.1 ++ summary, filesAfter := r.2.2.1,
      attempted := r.2.2.2 }

/-- Outcome of one `main` invocation: exit status, stdout, whether the
orchestrator was invoked, and the directory contents afterwards. -/
structure MainResult where
  exitCode : Nat
  output : List OutLine
  invoked : Bool
  filesAfter : List String
deriving DecidableEq

/-- The script's `main` (named `mainEntry` here because Lean reserves `main`):
directory validation, orchestrator call, quiet-mode count print, `sys.exit(0)`.
`files` is the contents of the effective target directory (the explicit one, or
the current working directory when defaulted); `dirExists` models `Path.exists`
for an explicitly supplied `--directory`. -/
def mainEntry (dirOpt : Option String) (dirExists : String → Bool) (files : List String)
    (max_age : Int) (dry_run quiet : Bool) (now now2 : Timestamp)
    (unlink : String → Option String) : MainResult :=
  match dirOpt with
  | some dir =>
    if !dirExists dir then
      { exitCode := 1, output := [OutLine.dirMissing dir], invoked := false,
        filesAfter := files }
    else
      let r := cleanup_old_wallpapers files max_age dry_run now now2 unlink
      { exitCode := 0,
        output := r.output ++ (if quiet then [OutLine.countLine r.count] else []),
        invoked := true, filesAfter := r.filesAfter }
  | none =>
    let r := cleanup_old_wallpapers files max_age dry_run now now2 unlink
    { exitCode := 0,
      output := r.output ++ (if quiet then [OutLine.countLine r.count] else []),
      invoked := true, filesAfter := r.filesAfter }

/-! ## Parser lemmas (claim C1) -/

lemma breakHyphen_eq (t : List Char) :
    breakHyphen t =
      match t.dropWhile (fun c => c != '-') with
      | _ :: b => some (t.takeWhile (fun c => c != '-'), b)
      | [] => none := by
  induction t with
  | nil => rfl
  | cons c cs ih =>
    by_cases hc : c = '-'
    · subst hc
      simp [breakHyphen]
    · cases hdw : cs.dropWhile (fun c => c != '-') with
      | nil => simp [breakHyphen, hc, ih, hdw]
      | cons a b => simp [breakHyphen, hc, ih, hdw]

lemma dropWhile_hyphen_head {t b : List Char} {a : Char}
    (h : t.dropWhile (fun c => c != '-') = a :: b) : a = '-' := by
  have := List.head?_dropWhile_not (fun c => c != '-') t
  rw [h] at this
  simpa using this

lemma digitVal_le_nine {c : Char} (h : c.isDigit = true) : digitVal c ≤ 9 := by
  simp only [Char.isDigit, Bool.and_eq_true, decide_eq_true_eq] at h
  have h2 : c.val ≤ 57 := h.2
  have h3 : c.val.toNat ≤ 57 := h2
  simp only [digitVal, Char.toNat]
  omega

lemma natOfDigits_four_le {a b c d : Char} (ha : a.isDigit = true) (hb : b.isDigit = true)
    (hc : c.isDigit = true) (hd : d.isDigit = true) :
    natOfDigits [a, b, c, d] ≤ 9999 := by
  have h1 := digitVal_le_nine ha
  have h2 := digitVal_le_nine hb
  have h3 := digitVal_le_nine hc
  have h4 := digitVal_le_nine hd
  simp only [natOfDigits, List.foldl]
  omega

lemma tailEq (b : List Char) :
    (match matchTail b with
     | some (y, m, d) => mkValidDate y m d
     | none => none)
      = specDateLoose b := by
  match b with
  | [] => rfl
  | [c1] => rfl
  | [c1, c2] => rfl
  | [c1, c2, c3] => rfl
  | [c1, c2, c3, c4] => rfl
  | [c1, c2, c3, c4, c5] => rfl
  | [c1, c2, c3, c4, c5, c6] => rfl
  | [c1, c2, c3, c4, c5, c6, c7] => rfl
  | [c1, c2, c3, c4, c5, c6, c7, c8] => rfl
  | [c1, c2, c3, c4, c5, c6, c7, c8, c9] => rfl
  | [c1, c2, c3, c4, c5, c6, c7, c8, c9, c10] => rfl
  | [c1, c2, c3, c4, c5, c6, c7, c8, c9, c10, c11] => rfl
  | [c1, c2, c3, c4, c5, c6, c7, c8, c9, c10, c11, c12] => rfl
  | [c1, c2, c3, c4, c5, c6, c7, c8, c9, c10, c11, c12, c13] => rfl
  | y1 :: y2 :: y3 :: y4 :: h1 :: m1 :: m2 :: h2 :: d1 :: d2 :: p1 :: p2 :: p3 :: p4 :: tl =>
    simp only [matchTail, specDateLoose]
    by_cases hg : (y1.isDigit && y2.isDigit && y3.isDigit && y4.isDigit && h1 == '-' &&
        m1.isDigit && m2.isDigit && h2 == '-' && d1.isDigit && d2.isDigit &&
        p1 == '.' && p2 == 'p' && p3 == 'n' && p4 == 'g') = true
    · simp only [hg, if_true, mkValidDate]
      simp only [Bool.and_eq_true] at hg
      have hy : natOfDigits [y1, y2, y3, y4] ≤ 9999 :=
        natOfDigits_four_le hg.1.1.1.1.1.1.1.1.1.1.1.1.1 hg.1.1.1.1.1.1.1.1.1.1.1.1.2
          hg.1.1.1.1.1.1.1.1.1.1.1.2 hg.1.1.1.1.1.1.1.1.1.1.2
      by_cases hv : 1 ≤ natOfDigits [y1, y2, y3, y4] ∧ 1 ≤ natOfDigits [m1, m2] ∧
          natOfDigits [m1, m2] ≤ 12 ∧ 1 ≤ natOfDigits [d1, d2] ∧
          natOfDigits [d1, d2] ≤ daysInMonth (natOfDigits [y1, y2, y3, y4]) (natOfDigits [m1, m2])
      · rw [if_pos ⟨hv.1, hy, hv.2.1, hv.2.2.1, hv.2.2.2.1, hv.2.2.2.2⟩, if_pos hv]
      · rw [if_neg ?_, if_neg hv]
        intro hfull
        exact hv ⟨hfull.1, hfull.2.2.1, hfull.2.2.2.1, hfull.2.2.2.2.1, hfull.2.2.2.2.2⟩
    · simp [hg]

lemma afterEq (t : List Char) :
    (match breakHyphen t with
     | some (id, rest) =>
       if id.isEmpty then none
       else
         match matchTail rest with
         | some (y, m, d) => mkValidDate y m d
         | none => none
     | none => none)
      = (match t.takeWhile (fun c => c != '-'), t.dropWhile (fun c => c != '-') with
         | _ :: _, '-' :: rest => specDateLoose rest
         | _, _ => none) := by
  rw [breakHyphen_eq]
  cases hdw : t.dropWhile (fun c => c != '-') with
  | nil => cases htw : t.takeWhile (fun c => c != '-') <;> simp
  | cons a b =>
    have ha := dropWhile_hyphen_head hdw
    subst ha
    cases htw : t.takeWhile (fun c => c != '-') with
    | nil => simp
    | cons x xs => simp [tailEq b]

/-- **C1, amended** (the parser, characterized against the amended claim):
for every string, `parse_date_from_filename` returns exactly what the amended
claim prescribes — a date is returned precisely for strings
`wallpaper-<id>-<YYYY-MM-DD>.png<anything>` whose date part is a valid calendar
date with year at least `0001`; every other string yields `none` rather than an
error. -/
theorem claim_C1_amended (s : String) : parse_date_from_filename s = amendedParse s := by
  simp only [parse_date_from_filename, amendedParse]
  by_cases hpre : (s.toList.take 10 == "wallpaper-".toList) = true
  · simp only [hpre, if_true]
    exact afterEq (s.toList.drop 10)
  · simp only [hpre, Bool.false_eq_true, if_false]

/-- **C1, counterexample to the claim as stated**: the claim demands `none` for
any string that is not exactly of the form `wallpaper-<id>-<valid-date>.png`,
and a date for every string of that form; the code tolerates trailing
characters after `.png` (regex not end-anchored) and rejects year `0000`
(`datetime.MINYEAR` is 1), so both directions fail. -/
theorem claim_C1_counterexample :
    parse_date_from_filename "wallpaper-x-2020-01-01.pngX"
        ≠ claimParse "wallpaper-x-2020-01-01.pngX" ∧
    parse_date_from_filename "wallpaper-x-2020-01-01.pngX" = some ⟨2020, 1, 1⟩ ∧
    claimParse "wallpaper-x-2020-01-01.pngX" = none ∧
    parse_date_from_filename "wallpaper-x-0000-01-01.png"
        ≠ claimParse "wallpaper-x-0000-01-01.png" ∧
    parse_date_from_filename "wallpaper-x-0000-01-01.png" = none ∧
    claimParse "wallpaper-x-0000-01-01.png" = some ⟨0, 1, 1⟩ := by
  refine ⟨by decide, by decide, by decide, by decide, by decide, by decide⟩

/-! ## Selector lemmas (claims C2, C6, C10) -/

lemma selectFile_eq_some {c : Timestamp} {name n : String} {d : Date} :
    selectFile c name = some (n, d) ↔
      n = name ∧ globMatch name = true ∧ parse_date_from_filename name = some d ∧
      tsLt (tsOfDate d) c = true := by
  unfold selectFile
  by_cases hg : globMatch name = true
  · rw [if_pos hg]
    cases hp : parse_date_from_filename name with
    | none => simp [hg]
    | some d' =>
      dsimp only
      by_cases ht : tsLt (tsOfDate d') c = true
      · rw [if_pos ht]
        constructor
        · rintro h
          rw [Option.some.injEq, Prod.mk.injEq] at h
          exact ⟨h.1.symm, hg, by rw [← h.2], by rw [← h.2]; exact ht⟩
        · rintro ⟨rfl, -, hpd, htd⟩
          rw [Option.some.injEq] at hpd
          rw [hpd]
      · rw [if_neg ht]
        constructor
        · rintro h; cases h
        · rintro ⟨rfl, -, hpd, htd⟩
          rw [Option.some.injEq] at hpd
          rw [hpd] at ht
          exact absurd htd ht
  · rw [if_neg hg]
    constructor
    · rintro h; cases h
    · rintro ⟨-, hg', -⟩; exact absurd hg' hg

lemma mem_find_old {files : List String} {now : Timestamp} {max_age_days : Int}
    {p : String × Date} :
    p ∈ find_old_wallpapers files now max_age_days ↔
      p.1 ∈ files ∧ globMatch p.1 = true ∧ parse_date_from_filename p.1 = some p.2 ∧
      tsLt (tsOfDate p.2) (cutoffOf now max_age_days) = true := by
  rcases p with ⟨n, d⟩
  unfold find_old_wallpapers
  rw [List.mem_insertionSort, List.mem_filterMap]
  constructor
  · rintro ⟨name, hmem, hsel⟩
    rcases selectFile_eq_some.mp hsel with ⟨rfl, hg, hp, ht⟩
    exact ⟨hmem, hg, hp, ht⟩
  · rintro ⟨hmem, hg, hp, ht⟩
    exact ⟨n, hmem, selectFile_eq_some.mpr ⟨rfl, hg, hp, ht⟩⟩

/-- **C2**: for every directory and threshold, the selector's output is sorted
non-decreasing by parsed date, every returned date lies strictly before the
cutoff `now - max_age_days` computed when selection begins, and when the
directory is empty or no name survives the glob, the result is the empty list
rather than an error. -/
theorem claim_C2 (files : List String) (now : Timestamp) (max_age_days : Int) :
    List.Sorted wallLe (find_old_wallpapers files now max_age_days) ∧
    (∀ p ∈ find_old_wallpapers files now max_age_days,
        tsLt (tsOfDate p.2) (cutoffOf now max_age_days) = true) ∧
    (files = [] → find_old_wallpapers files now max_age_days = []) ∧
    ((∀ name ∈ files, globMatch name = false) →
        find_old_wallpapers files now max_age_days = []) := by
  refine ⟨List.sorted_insertionSort wallLe _, ?_, ?_, ?_⟩
  · intro p hp
    exact (mem_find_old.mp hp).2.2.2
  · rintro rfl
    rfl
  · intro hng
    rw [List.eq_nil_iff_forall_not_mem]
    intro p hp
    have h := mem_find_old.mp hp
    have hf := hng p.1 h.1
    rw [h.2.1] at hf
    cases hf

/-- **C2, witness**: a concrete sorted selection and a concrete no-match run. -/
theorem claim_C2_witness :
    tsLt (tsOfDate ⟨2020, 1, 1⟩) (cutoffOf ⟨737600, 5⟩ 30) = true ∧
    find_old_wallpapers ["notes.txt"] ⟨737600, 5⟩ 30 = [] :=
  ⟨(claim_C2 ["wallpaper-laptop-2020-01-01.png"] ⟨737600, 5⟩ 30).2.1
      ("wallpaper-laptop-2020-01-01.png", ⟨2020, 1, 1⟩) (by decide),
   (claim_C2 ["notes.txt"] ⟨737600, 5⟩ 30).2.2.2 (by decide)⟩

/-- **C10**: `max_age_days` is never validated — for every integer threshold,
including zero and negatives, a file is selected exactly when it glob-matches,
parses, and its date lies strictly before `now - max_age_days`; in particular
with a negative threshold the cutoff lies in the future and a file dated after
today (but before the shifted cutoff) is selected for deletion. -/
theorem claim_C10 (files : List String) (now : Timestamp) (max_age_days : Int)
    (p : String × Date) :
    (p ∈ find_old_wallpapers files now max_age_days ↔
      p.1 ∈ files ∧ globMatch p.1 = true ∧ parse_date_from_filename p.1 = some p.2 ∧
      tsLt (tsOfDate p.2) (cutoffOf now max_age_days) = true) ∧
    (max_age_days < 0 → p.1 ∈ files → globMatch p.1 = true →
      parse_date_from_filename p.1 = some p.2 →
      now.day < dateDayNum p.2 → dateDayNum p.2 < now.day - max_age_days →
      p ∈ find_old_wallpapers files now max_age_days) := by
  refine ⟨mem_find_old, ?_⟩
  intro _ hmem hg hp _ hlt
  exact mem_find_old.mpr ⟨hmem, hg, hp, by simp [tsLt, cutoffOf, tsOfDate, hlt]⟩

/-- **C10, witness**: with `max_age_days = -5` on 2020-01-01, the future-dated
file `wallpaper-x-2020-01-04.png` is selected for deletion. -/
theorem claim_C10_witness :
    ("wallpaper-x-2020-01-04.png", (⟨2020, 1, 4⟩ : Date)) ∈
      find_old_wallpapers ["wallpaper-x-2020-01-04.png"] ⟨737425, 0⟩ (-5) :=
  (claim_C10 ["wallpaper-x-2020-01-04.png"] ⟨737425, 0⟩ (-5)
      ("wallpaper-x-2020-01-04.png", ⟨2020, 1, 4⟩)).2 (by decide) (by decide) (by decide)
      (by decide) (by decide) (by decide)

/-! ## Orchestrator lemmas (claims C3, C4, C5, C7, C8) -/

/-- Discriminates the two summary lines of the orchestrator. -/
def isSummaryLine : OutLine → Bool
  | OutLine.liveSummary _ => true
  | OutLine.drySummary _ => true
  | _ => false

lemma cleanupLoop_dry (unlink : String → Option String) (now2 : Timestamp) :
    ∀ (cands : List (String × Date)) (fs : List String),
      cleanupLoop true unlink now2 cands fs =
        (cands.length,
         cands.map (fun p => OutLine.fileLine p.1 p.2 (now2.day - dateDayNum p.2)),
         fs, []) := by
  intro cands
  induction cands with
  | nil => intro fs; rfl
  | cons p rest ih =>
    intro fs
    rcases p with ⟨name, d⟩
    simp [cleanupLoop, ih]

lemma cleanupLoop_live_count (unlink : String → Option String) (now2 : Timestamp) :
    ∀ (cands : List (String × Date)) (fs : List String),
      (cleanupLoop false unlink now2 cands fs).1 =
        (cands.filter (fun p => (unlink p.1).isNone)).length := by
  intro cands
  induction cands with
  | nil => intro fs; rfl
  | cons p rest ih =>
    intro fs
    rcases p with ⟨name, d⟩
    cases hu : unlink name with
    | none => simp [cleanupLoop, hu, ih, List.filter_cons]
    | some e => simp [cleanupLoop, hu, ih, List.filter_cons]

lemma cleanupLoop_live_att (unlink : String → Option String) (now2 : Timestamp) :
    ∀ (cands : List (String × Date)) (fs : List String),
      (cleanupLoop false unlink now2 cands fs).2.2.2 = cands.map (fun p => p.1) := by
  intro cands
  induction cands with
  | nil => intro fs; rfl
  | cons p rest ih =>
    intro fs
    rcases p with ⟨name, d⟩
    cases hu : unlink name with
    | none => simp [cleanupLoop, hu, ih]
    | some e => simp [cleanupLoop, hu, ih]

lemma cleanupLoop_out_mem (unlink : String → Option String) (now2 : Timestamp) :
    ∀ (cands : List (String × Date)) (fs : List String) (p : String × Date), p ∈ cands →
      OutLine.fileLine p.1 p.2 (now2.day - dateDayNum p.2)
          ∈ (cleanupLoop false unlink now2 cands fs).2.1 ∧
      (∀ e, unlink p.1 = some e →
        OutLine.deleteError p.1 e ∈ (cleanupLoop false unlink now2 cands fs).2.1) := by
  intro cands
  induction cands with
  | nil =>
    intro fs p hp
    cases hp
  | cons q rest ih =>
    intro fs p hp
    rcases q with ⟨qn, qd⟩
    rcases List.mem_cons.mp hp with heq | hmem
    · subst heq
      cases hu : unlink qn with
      | none => simp [cleanupLoop, hu]
      | some e => simp [cleanupLoop, hu]
    · cases hu : unlink qn with
      | none =>
        have h := ih (fs.erase qn) p hmem
        refine ⟨?_, fun e he => ?_⟩
        · simp only [cleanupLoop, hu]
          exact List.mem_cons_of_mem _ h.1
        · simp only [cleanupLoop, hu]
          exact List.mem_cons_of_mem _ (h.2 e he)
      | some e' =>
        have h := ih fs p hmem
        refine ⟨?_, fun e he => ?_⟩
        · simp only [cleanupLoop, hu]
          exact List.mem_cons_of_mem _ (List.mem_cons_of_mem _ h.1)
        · simp only [cleanupLoop, hu]
          exact List.mem_cons_of_mem _ (List.mem_cons_of_mem _ (h.2 e he))

lemma cleanupLoop_no_summary (dr : Bool) (unlink : String → Option String) (now2 : Timestamp) :
    ∀ (cands : List (String × Date)) (fs : List String) (l : OutLine),
      l ∈ (cleanupLoop dr unlink now2 cands fs).2.1 → isSummaryLine l = false := by
  intro cands
  induction cands with
  | nil =>
    intro fs l hl
    cases hl
  | cons q rest ih =>
    intro fs l hl
    rcases q with ⟨qn, qd⟩
    cases dr with
    | true =>
      simp [cleanupLoop] at hl
      rcases hl with rfl | hl
      · rfl
      · exact ih fs l hl
    | false =>
      cases hu : unlink qn with
      | none =>
        simp [cleanupLoop, hu] at hl
        rcases hl with rfl | hl
        · rfl
        · exact ih (fs.erase qn) l hl
      | some e =>
        simp [cleanupLoop, hu] at hl
        rcases hl with rfl | rfl | hl
        · rfl
        · rfl
        · exact ih fs l hl

lemma cleanupLoop_live_fs (unlink : String → Option String) (now2 : Timestamp) :
    ∀ (cands : List (String × Date)) (fs : List String), fs.Nodup →
      ∀ n, n ∈ (cleanupLoop false unlink now2 cands fs).2.2.1 →
        n ∈ fs ∧ ∀ d, (n, d) ∈ cands → unlink n ≠ none := by
  intro cands
  induction cands with
  | nil =>
    intro fs _ n hn
    refine ⟨hn, fun d hd => ?_⟩
    cases hd
  | cons q rest ih =>
    intro fs hnd n hn
    rcases q with ⟨qn, qd⟩
    cases hu : unlink qn with
    | none =>
      simp only [cleanupLoop, hu] at hn
      have h2 := ih (fs.erase qn) (hnd.erase qn) n hn
      refine ⟨List.mem_of_mem_erase h2.1, fun d hd => ?_⟩
      rcases List.mem_cons.mp hd with heq | hmem
      · rcases Prod.mk.injEq .. ▸ heq with ⟨rfl, rfl⟩
        exact absurd h2.1 (hnd.not_mem_erase)
      · exact h2.2 d hmem
    | some e =>
      simp only [cleanupLoop, hu] at hn
      have h2 := ih fs hnd n hn
      refine ⟨h2.1, fun d hd => ?_⟩
      rcases List.mem_cons.mp hd with heq | hmem
      · rcases Prod.mk.injEq .. ▸ heq with ⟨rfl, rfl⟩
        rw [hu]
        simp
      · exact h2.2 d hmem

lemma filter_length_eq_iff {α : Type} {l : List α} {P : α → Bool} :
    (l.filter P).length = l.length ↔ ∀ a ∈ l, P a = true := by
  constructor
  · intro h a ha
    have hs : l.filter P = l := (List.filter_sublist l).eq_of_length h
    rw [← hs] at ha
    exact List.of_mem_filter ha
  · intro h
    rw [List.filter_eq_self.mpr h]

/-- **C3** (evaluating the code at the failing input): with `--quiet` set, the
narrative output is *not* suppressed — the orchestrator's informational or
per-file lines still reach stdout, and the bare count is printed *in
addition*.  On an empty directory the quiet run prints the "no files" line and
then `0`; on a dry run it prints the full narrative and then the count. -/
theorem claim_C3_bug :
    (mainEntry none (fun _ => true) [] 30 false true ⟨737600, 0⟩ ⟨737600, 0⟩
        (fun _ => none)).output
      = [OutLine.noFiles 30, OutLine.countLine 0] ∧
    (mainEntry none (fun _ => true) ["wallpaper-a-2020-01-05.png"] 30 true true
        ⟨737600, 5⟩ ⟨737600, 5⟩ (fun _ => none)).output
      = [OutLine.header "Would delete" 1 ⟨737570, 5⟩,
         OutLine.fileLine "wallpaper-a-2020-01-05.png" ⟨2020, 1, 5⟩ 171,
         OutLine.drySummary 1, OutLine.countLine 1] := by
  refine ⟨by decide, by decide⟩

/-- **C5**: in live mode a per-file deletion failure is caught, logged with the
file name and the OS error, does not abort the run (every candidate still gets
its per-file line), and is not counted: the returned total is exactly the
number of candidates whose deletion succeeded, equalling the candidate count
iff every deletion succeeds; in simulate mode the count always equals the
candidate count. -/
theorem claim_C5 (files : List String) (max_age_days : Int) (now now2 : Timestamp)
    (unlink : String → Option String) :
    (cleanup_old_wallpapers files max_age_days false now now2 unlink).count
      = ((find_old_wallpapers files now max_age_days).filter
          (fun p => (unlink p.1).isNone)).length ∧
    (cleanup_old_wallpapers files max_age_days true now now2 unlink).count
      = (find_old_wallpapers files now max_age_days).length ∧
    (∀ p ∈ find_old_wallpapers files now max_age_days, ∀ e, unlink p.1 = some e →
      OutLine.deleteError p.1 e
        ∈ (cleanup_old_wallpapers files max_age_days false now now2 unlink).output) ∧
    (∀ p ∈ find_old_wallpapers files now max_age_days,
      OutLine.fileLine p.1 p.2 (now2.day - dateDayNum p.2)
        ∈ (cleanup_old_wallpapers files max_age_days false now now2 unlink).output) ∧
    ((cleanup_old_wallpapers files max_age_days false now now2 unlink).count
        = (find_old_wallpapers files now max_age_days).length ↔
      ∀ p ∈ find_old_wallpapers files now max_age_days, (unlink p.1).isNone = true) := by
  unfold cleanup_old_wallpapers
  by_cases he : (find_old_wallpapers files now max_age_days).isEmpty = true
  · have hnil : find_old_wallpapers files now max_age_days = [] := by
      simpa using he
    rw [hnil]
    simp
  · have hne : (find_old_wallpapers files now max_age_days).isEmpty = false := by
      simpa using he
    simp only [hne, Bool.false_eq_true, if_false]
    refine ⟨cleanupLoop_live_count unlink now2 _ files, ?_, ?_, ?_, ?_⟩
    · rw [cleanupLoop_dry]
    · intro p hp e hee
      have h := (cleanupLoop_out_mem unlink now2 _ files p hp).2 e hee
      exact List.mem_cons_of_mem _ (List.mem_append_left _ h)
    · intro p hp
      have h := (cleanupLoop_out_mem unlink now2 _ files p hp).1
      exact List.mem_cons_of_mem _ (List.mem_append_left _ h)
    · rw [cleanupLoop_live_count unlink now2 _ files]
      exact filter_length_eq_iff

/-- **C5, witness**: a failed deletion is logged and excluded from the count. -/
theorem claim_C5_witness :
    OutLine.deleteError "wallpaper-b-2020-01-01.png" "Permission denied"
      ∈ (cleanup_old_wallpapers
          ["wallpaper-a-2020-01-05.png", "wallpaper-b-2020-01-01.png"] 30 false
          ⟨737600, 5⟩ ⟨737600, 5⟩
          (fun n => if n = "wallpaper-b-2020-01-01.png" then some "Permission denied"
                    else none)).output :=
  (claim_C5 ["wallpaper-a-2020-01-05.png", "wallpaper-b-2020-01-01.png"] 30
      ⟨737600, 5⟩ ⟨737600, 5⟩
      (fun n => if n = "wallpaper-b-2020-01-01.png" then some "Permission denied"
                else none)).2.2.1
    ("wallpaper-b-2020-01-01.png", ⟨2020, 1, 1⟩) (by decide) "Permission denied" (by decide)

/-- **C7**: a simulate-mode run never mutates the directory — the file list
after a dry run is identical to the one before, and no `unlink` call is ever
made. -/
theorem claim_C7 (files : List String) (max_age_days : Int) (now now2 : Timestamp)
    (unlink : String → Option String) :
    (cleanup_old_wallpapers files max_age_days true now now2 unlink).filesAfter = files ∧
    (cleanup_old_wallpapers files max_age_days true now now2 unlink).attempted = [] := by
  unfold cleanup_old_wallpapers
  by_cases he : (find_old_wallpapers files now max_age_days).isEmpty = true
  · simp [he]
  · have hne : (find_old_wallpapers files now max_age_days).isEmpty = false := by
      simpa using he
    simp [hne, cleanupLoop_dry]

/-- **C4, counterexample**: with one overdue candidate whose deletion fails,
the live run processes all candidates, returns 0, and emits *no* summary line —
contradicting the claim that a summary is emitted "including the live-mode
case where zero deletions succeeded". -/
theorem claim_C4_counterexample :
    find_old_wallpapers ["wallpaper-x-2020-01-01.png"] ⟨737500, 0⟩ 30 ≠ [] ∧
    (cleanup_old_wallpapers ["wallpaper-x-2020-01-01.png"] 30 false ⟨737500, 0⟩ ⟨737500, 0⟩
        (fun _ => some "Permission denied")).output
      = [OutLine.header "Deleting" 1 ⟨737470, 0⟩,
         OutLine.fileLine "wallpaper-x-2020-01-01.png" ⟨2020, 1, 1⟩ 75,
         OutLine.deleteError "wallpaper-x-2020-01-01.png" "Permission denied"] ∧
    ((cleanup_old_wallpapers ["wallpaper-x-2020-01-01.png"] 30 false ⟨737500, 0⟩ ⟨737500, 0⟩
        (fun _ => some "Permission denied")).output.all
      (fun l => !isSummaryLine l)) = true ∧
    (cleanup_old_wallpapers ["wallpaper-x-2020-01-01.png"] 30 false ⟨737500, 0⟩ ⟨737500, 0⟩
        (fun _ => some "Permission denied")).count = 0 := by
  refine ⟨by decide, by decide, by decide, by decide⟩

/-- **C4, amended**: with a non-empty candidate list, a summary line stating
the total is emitted in simulate mode always, and in live mode exactly when at
least one deletion succeeded; when every live deletion fails (count = 0) no
summary line appears. -/
theorem claim_C4_amended (files : List String) (max_age_days : Int) (dry_run : Bool)
    (now now2 : Timestamp) (unlink : String → Option String)
    (hne : find_old_wallpapers files now max_age_days ≠ []) :
    (dry_run = true →
      OutLine.drySummary
          (cleanup_old_wallpapers files max_age_days dry_run now now2 unlink).count
        ∈ (cleanup_old_wallpapers files max_age_days dry_run now now2 unlink).output) ∧
    (dry_run = false →
      0 < (cleanup_old_wallpapers files max_age_days dry_run now now2 unlink).count →
      OutLine.liveSummary
          (cleanup_old_wallpapers files max_age_days dry_run now now2 unlink).count
        ∈ (cleanup_old_wallpapers files max_age_days dry_run now now2 unlink).output) ∧
    (dry_run = false →
      (cleanup_old_wallpapers files max_age_days dry_run now now2 unlink).count = 0 →
      ((cleanup_old_wallpapers files max_age_days dry_run now now2 unlink).output.all
        (fun l => !isSummaryLine l)) = true) := by
  have hemp : (find_old_wallpapers files now max_age_days).isEmpty = false := by
    simpa using hne
  unfold cleanup_old_wallpapers
  simp only [hemp, Bool.false_eq_true, if_false]
  cases dry_run with
  | true =>
    refine ⟨?_, ?_, ?_⟩
    · intro _
      simp
    · intro h
      cases h
    · intro h
      cases h
  | false =>
    refine ⟨?_, ?_, ?_⟩
    · intro h
      cases h
    · intro _ hc
      simp only [Bool.not_false, Bool.true_and, decide_eq_true_eq] at *
      rw [if_pos hc]
      simp
    · intro _ hc
      rw [hc, List.all_eq_true]
      intro l hl
      simp at hl
      rcases hl with rfl | hl2
      · rfl
      · have := cleanupLoop_no_summary false unlink now2
          (find_old_wallpapers files now max_age_days) files l hl2
        simp [this]

/-- **C4, witness for the amended theorem**: a dry run over one overdue file
emits its summary line. -/
theorem claim_C4_amended_witness :
    OutLine.drySummary
        (cleanup_old_wallpapers ["wallpaper-a-2020-01-05.png"] 30 true ⟨737600, 5⟩
          ⟨737600, 5⟩ (fun _ => none)).count
      ∈ (cleanup_old_wallpapers ["wallpaper-a-2020-01-05.png"] 30 true ⟨737600, 5⟩
          ⟨737600, 5⟩ (fun _ => none)).output :=
  (claim_C4_amended ["wallpaper-a-2020-01-05.png"] 30 true ⟨737600, 5⟩ ⟨737600, 5⟩
      (fun _ => none) (by decide)).1 rfl

/-! ## Day-granularity lemmas (claim C6) -/

lemma tsLt_midnight {k c : Int} {t : Nat} (ht : 0 < t) :
    tsLt ⟨k, 0⟩ ⟨c, t⟩ = true ↔ k ≤ c := by
  simp only [tsLt, Bool.or_eq_true, Bool.and_eq_true, decide_eq_true_eq, beq_iff_eq]
  constructor
  · rintro (h | ⟨rfl, -⟩)
    · exact le_of_lt h
    · exact le_refl k
  · intro h
    rcases lt_or_eq_of_le h with h' | rfl
    · exact Or.inl h'
    · exact Or.inr ⟨rfl, ht⟩

lemma tsLt_cutoff_congr {dn : Int} {now now' : Timestamp} {max_age_days : Int}
    (hday : now.day = now'.day) (h1 : 0 < now.tod) (h2 : 0 < now'.tod) :
    tsLt ⟨dn, 0⟩ (cutoffOf now max_age_days) = tsLt ⟨dn, 0⟩ (cutoffOf now' max_age_days) := by
  simp only [cutoffOf]
  rw [Bool.eq_iff_iff, tsLt_midnight h1, tsLt_midnight h2, hday]

lemma selectFile_day_congr {now now' : Timestamp} {max_age_days : Int}
    (hday : now.day = now'.day) (h1 : 0 < now.tod) (h2 : 0 < now'.tod) :
    selectFile (cutoffOf now max_age_days) = selectFile (cutoffOf now' max_age_days) := by
  funext name
  unfold selectFile
  cases parse_date_from_filename name with
  | none => rfl
  | some d =>
    dsimp only
    rw [tsOfDate, tsLt_cutoff_congr hday h1 h2]

/-- **C6, counterexample**: selection does depend on the time of day at the
midnight boundary — two runs on the same calendar day (ordinal 737455,
2020-01-31), one exactly at midnight and one a moment later, disagree on a
file dated exactly `max_age_days` before. -/
theorem claim_C6_counterexample :
    (⟨737455, 0⟩ : Timestamp).day = (⟨737455, 1⟩ : Timestamp).day ∧
    find_old_wallpapers ["wallpaper-x-2020-01-01.png"] ⟨737455, 0⟩ 30 = [] ∧
    find_old_wallpapers ["wallpaper-x-2020-01-01.png"] ⟨737455, 1⟩ 30
      = [("wallpaper-x-2020-01-01.png", ⟨2020, 1, 1⟩)] := by
  refine ⟨rfl, by decide, by decide⟩

/-- **C6, amended**: parsed dates carry no time-of-day component, and for any
run not exactly at local midnight selection is decided at day granularity: two
runs on the same calendar day agree, and a file is selected iff the whole-day
difference between today and its embedded date is at least `max_age_days`.
Only a run at midnight to the clock's precision differs, excluding the file
aged exactly `max_age_days`. -/
theorem claim_C6_amended (files : List String) (max_age_days : Int)
    (now now' : Timestamp) (hday : now.day = now'.day) (h1 : 0 < now.tod)
    (h2 : 0 < now'.tod) :
    find_old_wallpapers files now max_age_days
        = find_old_wallpapers files now' max_age_days ∧
    (∀ p ∈ find_old_wallpapers files now max_age_days, (tsOfDate p.2).tod = 0) ∧
    (∀ p : String × Date, p ∈ find_old_wallpapers files now max_age_days ↔
      p.1 ∈ files ∧ globMatch p.1 = true ∧ parse_date_from_filename p.1 = some p.2 ∧
      max_age_days ≤ now.day - dateDayNum p.2) := by
  refine ⟨?_, ?_, ?_⟩
  · unfold find_old_wallpapers
    rw [selectFile_day_congr hday h1 h2]
  · intro p _
    rfl
  · intro p
    rw [mem_find_old]
    constructor
    · rintro ⟨hm, hg, hp, ht⟩
      refine ⟨hm, hg, hp, ?_⟩
      rw [tsOfDate] at ht
      simp only [cutoffOf] at ht
      rw [tsLt_midnight h1] at ht
      omega
    · rintro ⟨hm, hg, hp, ht⟩
      refine ⟨hm, hg, hp, ?_⟩
      rw [tsOfDate]
      simp only [cutoffOf]
      rw [tsLt_midnight h1]
      omega

/-- **C6, witness for the amended theorem**: two non-midnight runs on the same
day produce the same selection. -/
theorem claim_C6_amended_witness :
    find_old_wallpapers ["wallpaper-x-2020-01-01.png"] ⟨737455, 1⟩ 30
      = find_old_wallpapers ["wallpaper-x-2020-01-01.png"] ⟨737455, 2⟩ 30 :=
  (claim_C6_amended ["wallpaper-x-2020-01-01.png"] 30 ⟨737455, 1⟩ ⟨737455, 2⟩ rfl
      (by decide) (by decide)).1

/-! ## Idempotence and entry-point lemmas (claims C8, C9) -/

lemma cleanup_filesAfter_mem (files : List String) (max_age_days : Int)
    (now now2 : Timestamp) (unlink : String → Option String) (hnd : files.Nodup) :
    ∀ n ∈ (cleanup_old_wallpapers files max_age_days false now now2 unlink).filesAfter,
      n ∈ files ∧
      ∀ d, (n, d) ∈ find_old_wallpapers files now max_age_days → unlink n ≠ none := by
  unfold cleanup_old_wallpapers
  by_cases he : (find_old_wallpapers files now max_age_days).isEmpty = true
  · have hnil : find_old_wallpapers files now max_age_days = [] := by simpa using he
    simp only [he, if_true]
    intro n hn
    refine ⟨hn, fun d hd => ?_⟩
    rw [hnil] at hd
    cases hd
  · have hne : (find_old_wallpapers files now max_age_days).isEmpty = false := by
      simpa using he
    simp only [hne, Bool.false_eq_true, if_false]
    intro n hn
    exact cleanupLoop_live_fs unlink now2 _ files hnd n hn

lemma cleanup_attempted_mem (files : List String) (max_age_days : Int)
    (now now2 : Timestamp) (unlink : String → Option String) :
    ∀ n ∈ (cleanup_old_wallpapers files max_age_days false now now2 unlink).attempted,
      ∃ d, (n, d) ∈ find_old_wallpapers files now max_age_days := by
  unfold cleanup_old_wallpapers
  by_cases he : (find_old_wallpapers files now max_age_days).isEmpty = true
  · simp only [he, if_true]
    intro n hn
    cases hn
  · have hne : (find_old_wallpapers files now max_age_days).isEmpty = false := by
      simpa using he
    simp only [hne, Bool.false_eq_true, if_false]
    intro n hn
    rw [cleanupLoop_live_att] at hn
    rcases List.mem_map.mp hn with ⟨p, hp, rfl⟩
    exact ⟨p.2, by simpa using hp⟩

/-- **C8**: live-mode cleanup never deletes a file twice — every candidate of a
second run over the directory left by a first run is a file that survived the
first run, and is distinct from every file the first run successfully deleted;
likewise every `unlink` the second run attempts targets a file the first run
did not delete. -/
theorem claim_C8 (files : List String) (max_age_days : Int)
    (now now2 now' now2' : Timestamp) (unlink unlink' : String → Option String)
    (hnd : files.Nodup) :
    (∀ p ∈ find_old_wallpapers
        (cleanup_old_wallpapers files max_age_days false now now2 unlink).filesAfter
        now' max_age_days,
      p.1 ∈ (cleanup_old_wallpapers files max_age_days false now now2 unlink).filesAfter ∧
      ∀ q ∈ find_old_wallpapers files now max_age_days,
        (unlink q.1).isNone = true → q.1 ≠ p.1) ∧
    (∀ n ∈ (cleanup_old_wallpapers
        (cleanup_old_wallpapers files max_age_days false now now2 unlink).filesAfter
        max_age_days false now' now2' unlink').attempted,
      ∀ q ∈ find_old_wallpapers files now max_age_days,
        (unlink q.1).isNone = true → q.1 ≠ n) := by
  have main : ∀ n,
      n ∈ (cleanup_old_wallpapers files max_age_days false now now2 unlink).filesAfter →
      ∀ q ∈ find_old_wallpapers files now max_age_days,
        (unlink q.1).isNone = true → q.1 ≠ n := by
    intro n hn q hq hqn heq
    have hk := (cleanup_filesAfter_mem files max_age_days now now2 unlink hnd n hn).2
    have hq' : (n, q.2) ∈ find_old_wallpapers files now max_age_days := by
      rw [← heq]
      simpa using hq
    have hne := hk q.2 hq'
    rw [Option.isNone_iff_eq_none, heq] at hqn
    exact hne hqn
  refine ⟨?_, ?_⟩
  · intro p hp
    have hp1 := (mem_find_old.mp hp).1
    exact ⟨hp1, main p.1 hp1⟩
  · intro n hn q hq hqn
    rcases cleanup_attempted_mem _ max_age_days now' now2' unlink' n hn with ⟨d, hd⟩
    exact main n (mem_find_old.mp hd).1 q hq hqn

/-- **C8, witness**: after a first run in which only `wallpaper-a-…` could be
deleted, the failed file is still present and is a legitimate second-run
candidate distinct from the deleted one. -/
theorem claim_C8_witness :
    "wallpaper-b-2020-01-01.png"
      ∈ (cleanup_old_wallpapers
          ["wallpaper-a-2020-01-05.png", "wallpaper-b-2020-01-01.png"] 30 false
          ⟨737600, 5⟩ ⟨737600, 5⟩
          (fun n => if n = "wallpaper-b-2020-01-01.png" then some "Permission denied"
                    else none)).filesAfter :=
  ((claim_C8 ["wallpaper-a-2020-01-05.png", "wallpaper-b-2020-01-01.png"] 30
      ⟨737600, 5⟩ ⟨737600, 5⟩ ⟨737601, 7⟩ ⟨737601, 7⟩
      (fun n => if n = "wallpaper-b-2020-01-01.png" then some "Permission denied"
                else none)
      (fun _ => none) (by decide)).1
    ("wallpaper-b-2020-01-01.png", ⟨2020, 1, 1⟩) (by decide)).1

/-- **C9**: the entry point exits with status 1 without invoking the
orchestrator exactly when an explicitly supplied directory does not exist;
whenever the directory exists or is defaulted, the orchestrator runs and the
exit status is 0 regardless of counts or per-file failures. -/
theorem claim_C9 (dirOpt : Option String) (dirExists : String → Bool)
    (files : List String) (max_age : Int) (dry_run quiet : Bool)
    (now now2 : Timestamp) (unlink : String → Option String) :
    ((mainEntry dirOpt dirExists files max_age dry_run quiet now now2 unlink).exitCode = 1 ∧
      (mainEntry dirOpt dirExists files max_age dry_run quiet now now2 unlink).invoked
        = false ↔
      ∃ dir, dirOpt = some dir ∧ dirExists dir = false) ∧
    ((∀ dir, dirOpt = some dir → dirExists dir = true) →
      (mainEntry dirOpt dirExists files max_age dry_run quiet now now2 unlink).exitCode = 0 ∧
      (mainEntry dirOpt dirExists files max_age dry_run quiet now now2 unlink).invoked
        = true) := by
  cases dirOpt with
  | none => simp [mainEntry]
  | some dir =>
    by_cases hd : dirExists dir = true
    · constructor
      · simp [mainEntry, hd]
      · intro _
        simp [mainEntry, hd]
    · have hd' : dirExists dir = false := by simpa using hd
      constructor
      · simp [mainEntry, hd']
      · intro hall
        have := hall dir rfl
        rw [hd'] at this
        cases this

/-- **C9, witness**: a missing explicit directory exits 1 without invoking the
orchestrator; an existing one exits 0 with the orchestrator invoked. -/
theorem claim_C9_witness :
    ((mainEntry (some "/nonexistent") (fun _ => false) [] 5 false false ⟨0, 0⟩ ⟨0, 0⟩
        (fun _ => none)).exitCode = 1 ∧
      (mainEntry (some "/nonexistent") (fun _ => false) [] 5 false false ⟨0, 0⟩ ⟨0, 0⟩
        (fun _ => none)).invoked = false) ∧
    (mainEntry (some "/tmp") (fun _ => true) [] 5 false false ⟨0, 0⟩ ⟨0, 0⟩
        (fun _ => none)).exitCode = 0 :=
  ⟨(claim_C9 (some "/nonexistent") (fun _ => false) [] 5 false false ⟨0, 0⟩ ⟨0, 0⟩
      (fun _ => none)).1.mpr ⟨"/nonexistent", rfl, rfl⟩,
   ((claim_C9 (some "/tmp") (fun _ => true) [] 5 false false ⟨0, 0⟩ ⟨0, 0⟩
      (fun _ => none)).2 (fun _ h => by cases h; rfl)).1⟩
